import Mathlib

/-
  Verification development for the jex-voice-assistant repository.

  The definitions below shallowly embed, in Lean 4:
  - the frontend ArtifactPanel data-channel handler (webapp/components/ArtifactPanel.tsx);
  - the agent integration client call_n8n_workflow, send_artifact_to_frontend and the
    read_emails tool (docs/phase2_implementation_plan.md, agent/tools.py code);
  - the NotificationManager announcement queue and poller
    (docs/phase2_implementation_plan.md, agent/notifications.py code);
  - the ContextStore and TaskQueue components, modelled from the specification
    where the repository snapshot does not carry their implementation files.
-/

namespace Jex

/-- JSON values, as produced by JSON.parse on the frontend and json.dumps
    on the agent.  Numbers are modelled as integers, which covers every value
    the claims under study depend on. -/
inductive Json where
  | null : Json
  | bool (b : Bool) : Json
  | num (n : Int) : Json
  | str (s : String) : Json
  | arr (xs : List Json) : Json
  | obj (fs : List (String × Json)) : Json

/-! ## Frontend: ArtifactPanel (webapp/components/ArtifactPanel.tsx) -/

/-- JavaScript property access j.k: on null it throws a TypeError (error ());
    on an object it yields the field value, or undefined (none) when absent;
    on any other primitive or array it yields undefined. -/
def jsGetField : Json → String → Except Unit (Option Json)
  | .null, _ => .error ()
  | .obj fs, k =>
      match fs.find? (fun f => f.1 = k) with
      | some f => .ok (some f.2)
      | none => .ok none
  | _, _ => .ok none

/-- JavaScript truthiness of a parsed JSON value: null, false, 0 and the
    empty string are falsy; arrays and objects are always truthy. -/
def jsTruthy : Json → Bool
  | .null => false
  | .bool b => b
  | .num n => n != 0
  | .str s => s != ""
  | .arr _ => true
  | .obj _ => true

/-- Truthiness of an optional value: undefined (none) is falsy. -/
def jsTruthyOpt : Option Json → Bool
  | none => false
  | some v => jsTruthy v

/-- The strict comparison value === "artifact" on an optional JSON value. -/
def isArtifactTag : Option Json → Bool
  | some (.str s) => s == "artifact"
  | _ => false

/-- React state of the ArtifactPanel component: the currently displayed
    artifact and the history list. -/
structure PanelState where
  artifact : Option Json
  history : List Json

/-- The initial panel state: useState(null), useState([]). -/
def initialPanel : PanelState := { artifact := none, history := [] }

/-- Body of the useDataChannel callback, before the catch clause.  The
    incoming payload is given already decoded: none models a payload that is
    not valid JSON (JSON.parse throws), some data a successful parse.
    Returns the new state together with whether setArtifact was invoked;
    error () models an exception escaping the body (to be caught). -/
def handleBody (st : PanelState) (payload : Option Json) :
    Except Unit (PanelState × Bool) :=
  match payload with
  | none => .error ()
  | some data =>
      match jsGetField data "type" with
      | .error e => .error e
      | .ok t =>
        if isArtifactTag t then
          match jsGetField data "data" with
          | .error e => .error e
          | .ok d =>
            if jsTruthyOpt d then
              match d with
              | some dv =>
                  .ok ({ artifact := some dv,
                         history := (dv :: st.history).take 10 }, true)
              | none => .ok (st, false)
            else .ok (st, false)
        else .ok (st, false)

/-- The full useDataChannel callback: the try/catch wraps the whole body, so
    a parse failure (or any exception inside) leaves the state unchanged. -/
def handleMessageReport (st : PanelState) (payload : Option Json) :
    PanelState × Bool :=
  match handleBody st payload with
  | .ok r => r
  | .error _ => (st, false)

/-- The state after processing one incoming data-channel message. -/
def handleMessage (st : PanelState) (payload : Option Json) : PanelState :=
  (handleMessageReport st payload).1

/-- Whether a decoded message causes a display update: it parsed as JSON,
    has type === "artifact", and a truthy data field. -/
def isArtifactMsg : Option Json → Bool
  | none => false
  | some data =>
      match jsGetField data "type" with
      | .error _ => false
      | .ok t =>
        if isArtifactTag t then
          match jsGetField data "data" with
          | .error _ => false
          | .ok d => jsTruthyOpt d
        else false

/-- The state after processing a whole sequence of messages in order. -/
def processAll (st : PanelState) (msgs : List (Option Json)) : PanelState :=
  msgs.foldl handleMessage st

/-- The Recent navigation strip: rendered only when history.length > 1, as
    history.slice(1, 5). -/
def recentStrip (st : PanelState) : List Json :=
  if st.history.length > 1 then (st.history.drop 1).take 4 else []

/-! ## Agent: send_artifact_to_frontend (docs/phase2_implementation_plan.md) -/

/-- A message published on the LiveKit data channel. -/
structure SentMessage where
  payload : Json
  reliable : Bool

/-- The envelope json.dumps produces: { "type": "artifact", "data": artifact }. -/
def artifactEnvelope (artifact : Json) : Json :=
  .obj [("type", .str "artifact"), ("data", artifact)]

/-- send_artifact_to_frontend: when the session and room are live, publishes
    the envelope with reliable=True; otherwise publishes nothing. -/
def send_artifact_to_frontend (sessionAndRoom : Bool) (artifact : Json) :
    Option SentMessage :=
  if sessionAndRoom then
    some { payload := artifactEnvelope artifact, reliable := true }
  else
    none

/-- The artifact shape named by the display-channel contract:
    { type: string, data: JSON }. -/
def isArtifactShape : Json → Bool
  | .obj fs =>
      (match fs.find? (fun f => f.1 = "type") with
       | some f => match f.2 with | .str _ => true | _ => false
       | none => false)
      &&
      (fs.find? (fun f => f.1 = "data")).isSome
  | _ => false

/-! ## Agent: call_n8n_workflow (docs/phase2_implementation_plan.md, agent/tools.py) -/

/-- Result of evaluating response.json() on the received body. -/
inductive BodyParse where
  | ok (j : Json) : BodyParse
  | malformed (msg : String) : BodyParse

/-- Observable outcome of the awaited HTTP POST on one call: the request may
    time out, fail in transport, or yield a response with a status code, the
    status message httpx would attach, and the body parse outcome. -/
inductive HttpOutcome where
  | timeout (msg : String) : HttpOutcome
  | transportError (msg : String) : HttpOutcome
  | response (status : Nat) (statusMsg : String) (body : BodyParse) : HttpOutcome

/-- Python exceptions the embedded code can raise.  httpError covers
    httpx.HTTPError and all its subclasses (TimeoutException, TransportError,
    HTTPStatusError); valueError covers json.JSONDecodeError; attributeError
    arises from calling .get on a non-dict. -/
inductive PyErr where
  | httpError (msg : String) : PyErr
  | valueError (msg : String) : PyErr
  | attributeError (msg : String) : PyErr

/-- Membership in the httpx.HTTPError hierarchy, as tested by the first
    except clause. -/
def PyErr.isHttpxError : PyErr → Bool
  | .httpError _ => true
  | _ => false

/-- str(e) on a modelled exception. -/
def PyErr.text : PyErr → String
  | .httpError m => m
  | .valueError m => m
  | .attributeError m => m

/-- httpx response.raise_for_status(): raises HTTPStatusError, a subclass of
    httpx.HTTPError, unless the status code is 2xx. -/
def raise_for_status (status : Nat) (statusMsg : String) : Except PyErr Unit :=
  if 200 ≤ status ∧ status < 300 then .ok () else .error (.httpError statusMsg)

/-- httpx response.json(): the parsed body, or json.JSONDecodeError. -/
def response_json : BodyParse → Except PyErr Json
  | .ok j => .ok j
  | .malformed m => .error (.valueError m)

/-- The try block of call_n8n_workflow: await the POST, raise_for_status,
    return response.json(). -/
def n8nTryBody : HttpOutcome → Except PyErr Json
  | .timeout m => .error (.httpError m)
  | .transportError m => .error (.httpError m)
  | .response status statusMsg body =>
      match raise_for_status status statusMsg with
      | .error e => .error e
      | .ok _ => response_json body

/-- call_n8n_workflow (docs/phase2_implementation_plan.md lines 150-181).
    An .error result would model an exception propagating to the caller; the
    first except clause catches httpx.HTTPError, the second catches every
    remaining Exception, each returning a fallback dict. -/
def call_n8n_workflow (io : HttpOutcome) : Except PyErr Json :=
  match n8nTryBody io with
  | .ok j => .ok j
  | .error e =>
      if e.isHttpxError then
        .ok (.obj [("speech",
               .str ("I had trouble connecting to that service: " ++ e.text)),
              ("artifact", .null)])
      else
        .ok (.obj [("speech", .str ("An error occurred: " ++ e.text)),
              ("artifact", .null)])

/-- Whether the environment outcome is an integration failure in the sense of
    the spec: non-2xx status, timeout, or malformed JSON body. -/
def isIntegrationFailure : HttpOutcome → Bool
  | .timeout _ => true
  | .transportError _ => true
  | .response status _ body =>
      if 200 ≤ status ∧ status < 300 then
        match body with
        | .ok _ => false
        | .malformed _ => true
      else true

/-- The shape of the two fallback dicts call_n8n_workflow builds: a speech
    string together with artifact = None. -/
def isFallbackObj : Json → Bool
  | .obj [("speech", .str _), ("artifact", .null)] => true
  | _ => false

/-- The speech string call_n8n_workflow returns on a failing outcome (junk on
    a successful outcome, which the theorems exclude). -/
def failureSpeech : HttpOutcome → String
  | .timeout m => "I had trouble connecting to that service: " ++ m
  | .transportError m => "I had trouble connecting to that service: " ++ m
  | .response status statusMsg body =>
      if 200 ≤ status ∧ status < 300 then
        match body with
        | .ok _ => ""
        | .malformed m => "An error occurred: " ++ m
      else "I had trouble connecting to that service: " ++ statusMsg

/-- dict.get(key, default) on a JSON value; Python raises AttributeError when
    the receiver is not a dict. -/
def dictGet (j : Json) (k : String) (dflt : Json) : Except PyErr Json :=
  match j with
  | .obj fs =>
      match fs.find? (fun f => f.1 = k) with
      | some f => .ok f.2
      | none => .ok dflt
  | _ => .error (.attributeError "get")

/-- The read_emails tool (docs/phase2_implementation_plan.md lines 204-231):
    calls the workflow, forwards a present artifact to the frontend inside an
    inner try/except whose except swallows any error without touching the
    return value, and returns result.get("speech", fallback default). -/
def read_emails (io : HttpOutcome) : Except PyErr Json :=
  match call_n8n_workflow io with
  | .error e => .error e
  | .ok result =>
      dictGet result "speech" (.str "I couldn't retrieve your emails right now.")

/-- Whether the first character list occurs contiguously at the head of the
    second. -/
def listStarts : List Char → List Char → Bool
  | [], _ => true
  | _ :: _, [] => false
  | a :: as, b :: bs => a == b && listStarts as bs

/-- Whether the first character list occurs contiguously anywhere inside the
    second. -/
def listSomewhere (needle : List Char) : List Char → Bool
  | [] => listStarts needle []
  | b :: bs => listStarts needle (b :: bs) || listSomewhere needle bs

/-- Whether the string needle occurs as a contiguous substring of hay. -/
def strHasSub (needle hay : String) : Bool :=
  listSomewhere needle.toList hay.toList

/-! ## Agent: NotificationManager (docs/phase2_implementation_plan.md, agent/notifications.py) -/

/-- An incoming notification dict handed to add_notification: its type tag,
    content, and optional artifact. -/
structure NotifInput where
  ntype : String
  content : String
  artifact : Option Json

/-- An entry of the notification queue: the incoming dict extended by
    add_notification with a timestamp and the delivered flag. -/
structure Notification where
  ntype : String
  content : String
  artifact : Option Json
  timestamp : Nat
  delivered : Bool

/-- The NotificationManager state: the in-memory queue list. -/
structure NotificationManager where
  queue : List Notification

/-- add_notification: appends the dict with delivered = False and the current
    timestamp. -/
def add_notification (m : NotificationManager) (n : NotifInput) (now : Nat) :
    NotificationManager :=
  { queue := m.queue ++
      [{ ntype := n.ntype, content := n.content, artifact := n.artifact,
         timestamp := now, delivered := false }] }

/-- The loop body of check_pending over the queue list: find the first entry
    with delivered = False, set its flag to True in place, and return it
    together with its queue index. -/
def checkPendingAux : List Notification →
    Option (Nat × Notification) × List Notification
  | [] => (none, [])
  | n :: rest =>
      if n.delivered then
        ((checkPendingAux rest).1.map (fun p => (p.1 + 1, p.2)),
         n :: (checkPendingAux rest).2)
      else
        (some (0, { n with delivered := true }),
         { n with delivered := true } :: rest)

/-- check_pending: the next undelivered notification, marked delivered by the
    call itself, or None. -/
def check_pending (m : NotificationManager) :
    Option Notification × NotificationManager :=
  ((checkPendingAux m.queue).1.map Prod.snd, ⟨(checkPendingAux m.queue).2⟩)

/-- One poller tick of deliver_if_appropriate, additionally exposing which
    queue index check_pending consumed: the updated manager, the consumed
    index/notification, and the notification actually spoken (generate_reply
    runs only when a notification was returned and session.state == "idle"). -/
def pollerTick (m : NotificationManager) (sessionState : String) :
    NotificationManager × Option (Nat × Notification) × Option Notification :=
  (⟨(checkPendingAux m.queue).2⟩, (checkPendingAux m.queue).1,
    if sessionState = "idle" then (checkPendingAux m.queue).1.map Prod.snd
    else none)

/-- deliver_if_appropriate: check_pending runs first, then the idle test
    decides whether the returned notification is spoken. -/
def deliver_if_appropriate (m : NotificationManager) (sessionState : String) :
    NotificationManager × Option Notification :=
  ((pollerTick m sessionState).1, (pollerTick m sessionState).2.2)

/-- Running the poller over a sequence of ticks with the given observed
    session states: the final manager and the per-tick consumed picks. -/
def runTicks (m : NotificationManager) :
    List String → NotificationManager × List (Option (Nat × Notification))
  | [] => (m, [])
  | s :: ss =>
      let t := pollerTick m s
      let rest := runTicks t.1 ss
      (rest.1, t.2.1 :: rest.2)

/-- How many ticks of a run consumed the notification at queue index i. -/
def countPicksAt (picks : List (Option (Nat × Notification))) (i : Nat) : Nat :=
  (picks.filter (fun p => (p.map Prod.fst) = some i)).length

/-- Whether the queue entry at index i is currently marked delivered. -/
def deliveredAt (m : NotificationManager) (i : Nat) : Bool :=
  match m.queue.get? i with
  | some n => n.delivered
  | none => false

/-! ## ContextStore

The agent implementation file of the ContextStore is not part of the
repository snapshot (only the README and the specification describe it), so
the component is modelled from the specification, section 4.1. -/

/-- Modelled from the spec: a ContextEntry row of the missing agent context
    store, with topic key, payload, metadata, creation time and TTL. -/
structure ContextEntry where
  topic : String
  payload : Json
  metadata : Json
  created_at : Nat
  ttl_seconds : Nat

/-- Modelled from the spec: the missing agent context store, holding at most
    one live entry per topic, with a store-level default TTL (configurable per
    deployment, not per topic). -/
structure ContextStore where
  entries : List ContextEntry
  ttl_seconds : Nat

/-- Modelled from the spec: save(topic, payload, metadata) of the missing
    context store. Replaces any existing entry for the topic and resets
    created_at to the current time. -/
def ContextStore.save (s : ContextStore) (topic : String)
    (payload metadata : Json) (now : Nat) : ContextStore :=
  { s with entries :=
      { topic := topic, payload := payload, metadata := metadata,
        created_at := now, ttl_seconds := s.ttl_seconds } ::
      s.entries.filter (fun e => e.topic ≠ topic) }

/-- Modelled from the spec: expiry of an entry at the given time, derived as
    now - created_at > ttl_seconds. -/
def ContextEntry.expired (e : ContextEntry) (now : Nat) : Bool :=
  now - e.created_at > e.ttl_seconds

/-- Modelled from the spec: get(topic) of the missing context store. Returns
    absent if no entry exists or the entry's age exceeds its TTL; on expiry
    detection the entry is lazily dropped. -/
def ContextStore.get (s : ContextStore) (topic : String) (now : Nat) :
    Option Json × ContextStore :=
  match s.entries.find? (fun e => e.topic = topic) with
  | none => (none, s)
  | some e =>
      if e.expired now then
        (none, { s with entries := s.entries.filter (fun x => x.topic ≠ topic) })
      else
        (some e.payload, s)

/-! ## TaskQueue

The agent implementation file of the TaskQueue is likewise not part of the
repository snapshot; the component is modelled from the specification,
sections 3 and 4.2. -/

/-- Modelled from the spec: the Task lifecycle states. -/
inductive TaskStatus where
  | Pending : TaskStatus
  | Running : TaskStatus
  | Done : TaskStatus
  | Failed : TaskStatus
deriving DecidableEq

/-- Modelled from the spec: a Task record of the missing task queue. -/
structure Task where
  id : Nat
  kind : String
  params : Json
  status : TaskStatus
  created_at : Nat
  completed_at : Option Nat
  result : Option Json
  error : Option String

/-- Modelled from the spec: the missing task queue, a durable list of tasks
    in enqueue order together with the next fresh task id. -/
structure TaskQueue where
  tasks : List Task
  nextId : Nat

/-- Modelled from the spec: enqueue(kind, params) always creates a new
    Pending task with a fresh id, with no de-duplication. -/
def TaskQueue.enqueue (q : TaskQueue) (kind : String) (params : Json)
    (now : Nat) : Nat × TaskQueue :=
  (q.nextId,
   { tasks := q.tasks ++
       [{ id := q.nextId, kind := kind, params := params,
          status := .Pending, created_at := now, completed_at := none,
          result := none, error := none }],
     nextId := q.nextId + 1 })

/-- Modelled from the spec: the oldest Pending task of the list — minimal
    created_at among Pending tasks, the earliest-enqueued one on ties. -/
def oldestPending : List Task → Option Task
  | [] => none
  | t :: rest =>
      match oldestPending rest with
      | none => if t.status = .Pending then some t else none
      | some u =>
          if t.status = .Pending then
            if t.created_at ≤ u.created_at then some t else some u
          else some u

/-- Transition the task with the given id to Running. -/
def setRunningById (ts : List Task) (i : Nat) : List Task :=
  ts.map (fun t => if t.id = i then { t with status := TaskStatus.Running } else t)

/-- Modelled from the spec: claimNext() atomically selects the oldest Pending
    task, transitions it to Running, and returns ownership of it to the
    caller; none when no task is Pending.  Concurrent callers serialize
    through the queue's mutual-exclusion boundary, so an interleaving of N
    callers is a sequential composition of N claimNext calls. -/
def TaskQueue.claimNext (q : TaskQueue) : Option Task × TaskQueue :=
  match oldestPending q.tasks with
  | none => (none, q)
  | some t =>
      (some { t with status := TaskStatus.Running },
       { q with tasks := setRunningById q.tasks t.id })

/-- The task record holding a given id, if any. -/
def findById (ts : List Task) (i : Nat) : Option Task :=
  ts.find? (fun t => t.id = i)

/-- Modelled from the spec: complete(task_id, result) performs the transition
    Running to Done, recording the result; calling it on a task not in
    Running is an error. -/
def TaskQueue.complete (q : TaskQueue) (i : Nat) (result : Json) (now : Nat) :
    Except String TaskQueue :=
  match findById q.tasks i with
  | none => .error "no such task"
  | some t =>
      if t.status = .Running then
        .ok { q with tasks := q.tasks.map (fun u =>
          if u.id = i then
            { u with status := TaskStatus.Done, result := some result,
                     completed_at := some now }
          else u) }
      else .error "task is not Running"

/-- Modelled from the spec: fail(task_id, error) performs the transition
    Running to Failed, recording the error; calling it on a task not in
    Running is an error. -/
def TaskQueue.fail (q : TaskQueue) (i : Nat) (err : String) (now : Nat) :
    Except String TaskQueue :=
  match findById q.tasks i with
  | none => .error "no such task"
  | some t =>
      if t.status = .Running then
        .ok { q with tasks := q.tasks.map (fun u =>
          if u.id = i then
            { u with status := TaskStatus.Failed, error := some err,
                     completed_at := some now }
          else u) }
      else .error "task is not Running"

/-- Whether an Except result is a success. -/
def exceptOk {ε α : Type} : Except ε α → Bool
  | .ok _ => true
  | .error _ => false

/-- The operations a caller can perform on the task queue after creation. -/
inductive QOp where
  | enqueueOp (kind : String) (params : Json) (now : Nat) : QOp
  | claimOp : QOp
  | completeOp (i : Nat) (result : Json) (now : Nat) : QOp
  | failOp (i : Nat) (err : String) (now : Nat) : QOp

/-- Apply one queue operation; a rejected complete/fail leaves the queue
    unchanged. -/
def applyOp (q : TaskQueue) : QOp → TaskQueue
  | .enqueueOp k p now => (q.enqueue k p now).2
  | .claimOp => q.claimNext.2
  | .completeOp i r now =>
      match q.complete i r now with
      | .ok q' => q'
      | .error _ => q
  | .failOp i e now =>
      match q.fail i e now with
      | .ok q' => q'
      | .error _ => q

/-- Apply a sequence of queue operations in order. -/
def applyOps (q : TaskQueue) (ops : List QOp) : TaskQueue :=
  ops.foldl applyOp q

/-- Well-formedness of a queue: task ids are distinct and below nextId. -/
def TaskQueue.WF (q : TaskQueue) : Prop :=
  (q.tasks.map Task.id).Nodup ∧ ∀ t ∈ q.tasks, t.id < q.nextId

/-- A terminal task status. -/
def TaskStatus.terminal : TaskStatus → Bool
  | .Done => true
  | .Failed => true
  | _ => false

/-- Whether a task is Pending, as a Bool. -/
def isPending (t : Task) : Bool :=
  t.status = TaskStatus.Pending

/-- N sequential claimNext calls (the serialization of N concurrent callers),
    collecting each caller's received task. -/
def iterateClaims (q : TaskQueue) : Nat → List (Option Task) × TaskQueue
  | 0 => ([], q)
  | n + 1 =>
      let r := q.claimNext
      let rest := iterateClaims r.2 n
      (r.1 :: rest.1, rest.2)

/-- Option.or with explicit matching: the first value if present, else the
    second. -/
def optOr {α : Type} : Option α → Option α → Option α
  | some a, _ => some a
  | none, b => b

/-! ## Concrete values used by the closed evaluation theorems -/

/-- A typical background-completion announcement, just enqueued. -/
def pendingNotif : Notification :=
  { ntype := "task_complete", content := "Your feed refresh finished",
    artifact := none, timestamp := 0, delivered := false }

/-- A notification queue holding exactly that one undelivered announcement. -/
def managerWithOnePending : NotificationManager := ⟨[pendingNotif]⟩

/-- The same announcement once its delivered flag has been set. -/
def deliveredNotif : Notification := { pendingNotif with delivered := true }

/-- A notification queue holding exactly that one delivered announcement. -/
def managerWithOneDelivered : NotificationManager := ⟨[deliveredNotif]⟩

/-- A concrete Running task, used to exercise the queue transitions. -/
def runningTask : Task :=
  { id := 0, kind := "preload_feeds", params := .obj [],
    status := .Running, created_at := 0, completed_at := none,
    result := none, error := none }

/-- A concrete Pending task, used to exercise claimNext. -/
def pendingTask : Task :=
  { id := 1, kind := "preload_feeds", params := .obj [],
    status := .Pending, created_at := 5, completed_at := none,
    result := none, error := none }

/-- A concrete Done task, used to exercise terminal finality. -/
def doneTask : Task :=
  { id := 2, kind := "preload_feeds", params := .obj [],
    status := .Done, created_at := 1, completed_at := some 9,
    result := some (.obj []), error := none }

/-! ## ArtifactPanel lemmas -/

/-- The update flag of the data-channel handler agrees with isArtifactMsg. -/
theorem handleReport_snd_eq (st : PanelState) (p : Option Json) :
    (handleMessageReport st p).2 = isArtifactMsg p := by
  cases p with
  | none => rfl
  | some data =>
    simp only [handleMessageReport, handleBody, isArtifactMsg]
    cases hg : jsGetField data "type" with
    | error e => rfl
    | ok t =>
      cases ht : isArtifactTag t with
      | false => simp [ht]
      | true =>
        simp only [ht, if_true]
        cases hd : jsGetField data "data" with
        | error e => rfl
        | ok d =>
          cases htr : jsTruthyOpt d with
          | false => simp [htr]
          | true =>
            cases d with
            | none => simp [jsTruthyOpt] at htr
            | some dv => simp [htr]

/-- A message that is not a well-formed artifact message leaves the panel
    state unchanged (a thrown parse error is caught). -/
theorem handleMessage_of_not_artifactMsg (st : PanelState) (p : Option Json)
    (h : isArtifactMsg p = false) : handleMessage st p = st := by
  cases p with
  | none => rfl
  | some data =>
    simp only [isArtifactMsg] at h
    simp only [handleMessage, handleMessageReport, handleBody]
    cases hg : jsGetField data "type" with
    | error e => rfl
    | ok t =>
      rw [hg] at h
      cases ht : isArtifactTag t with
      | false => simp [ht]
      | true =>
        cases hd : jsGetField data "data" with
        | error e => simp [ht, hd]
        | ok d =>
          cases d with
          | none => simp [ht, hd, jsTruthyOpt]
          | some dv =>
            simp only [ht, hd, if_true, jsTruthyOpt] at h
            simp [ht, hd, jsTruthyOpt, h]

/-- Evaluation of the handler body on the exact sent envelope. -/
theorem handleBody_envelope (st : PanelState) (a : Json) :
    handleBody st (some (artifactEnvelope a)) =
      if jsTruthy a then
        .ok ({ artifact := some a, history := (a :: st.history).take 10 }, true)
      else .ok (st, false) := rfl

/-- A well-formed envelope around a truthy value updates the display and
    prepends to the history, keeping the last 10. -/
theorem handleMessage_envelope (st : PanelState) (a : Json)
    (ha : jsTruthy a = true) :
    handleMessage st (some (artifactEnvelope a)) =
      { artifact := some a, history := (a :: st.history).take 10 } := by
  unfold handleMessage handleMessageReport
  rw [handleBody_envelope, if_pos ha]

/-- isArtifactMsg on the exact sent envelope is the truthiness of the data. -/
theorem isArtifactMsg_envelope (a : Json) :
    isArtifactMsg (some (artifactEnvelope a)) = jsTruthy a := rfl

/-- processAll distributes over append. -/
theorem processAll_append (st : PanelState) (ms ns : List (Option Json)) :
    processAll st (ms ++ ns) = processAll (processAll st ms) ns := by
  simp [processAll, List.foldl_append]

/-- The panel state after a sequence of well-formed truthy envelopes from the
    initial state: the display holds the most recent value and the history the
    last ten, newest first. -/
theorem processAll_envelopes (as : List Json)
    (h : ∀ a ∈ as, jsTruthy a = true) :
    processAll initialPanel (as.map (fun a => some (artifactEnvelope a))) =
      { artifact := as.reverse.head?, history := as.reverse.take 10 } := by
  induction as using List.reverseRecOn with
  | nil => rfl
  | append_singleton as a ih =>
    have ha : jsTruthy a = true := h a (by simp)
    have h' : ∀ x ∈ as, jsTruthy x = true := fun x hx => h x (by simp [hx])
    rw [List.map_append, processAll_append, ih h']
    show handleMessage _ (some (artifactEnvelope a)) = _
    rw [handleMessage_envelope _ a ha]
    have hrev : (as ++ [a]).reverse = a :: as.reverse := by simp
    rw [hrev]
    simp [List.take_take]

/-- The Recent strip always equals history positions 1 through 4. -/
theorem recentStrip_eq (st : PanelState) :
    recentStrip st = (st.history.drop 1).take 4 := by
  unfold recentStrip
  split
  · rfl
  · next hl =>
    have h1 : st.history.length ≤ 1 := by omega
    have h2 : st.history.drop 1 = [] := List.drop_eq_nil_of_le h1
    rw [h2]
    rfl

/-- The Recent strip never shows more than 4 entries. -/
theorem recentStrip_len_le (st : PanelState) :
    (recentStrip st).length ≤ 4 := by
  rw [recentStrip_eq]
  simp [List.length_take]

/-- C9: for every incoming data-channel message whose payload is not valid
    JSON, or whose parsed value does not have type === "artifact" together
    with a truthy data field, the ArtifactPanel leaves both the displayed
    artifact and the history unchanged, and the handler never throws: the
    catch clause absorbs the parse error and setArtifact is not invoked. -/
theorem C9_invalid_message_ignored (st : PanelState) (p : Option Json)
    (h : isArtifactMsg p = false) :
    handleMessage st p = st ∧ (handleMessageReport st p).2 = false :=
  ⟨handleMessage_of_not_artifactMsg st p h, by
    rw [handleReport_snd_eq]; exact h⟩

/-- Witness for C9 at the concrete payload "null": not an artifact message,
    and the panel state is unchanged. -/
theorem C9_invalid_message_ignored_witness :
    isArtifactMsg (some Json.null) = false ∧
    handleMessage initialPanel (some Json.null) = initialPanel :=
  ⟨rfl, (C9_invalid_message_ignored initialPanel (some Json.null) rfl).1⟩

/-- C10: after processing any sequence of valid artifact messages from the
    initial state, the history holds at most 10 entries and is exactly the
    most recent received values newest first, the displayed artifact is the
    most recently received one, and the Recent strip is history positions 1
    through 4, hence at most 4 entries. -/
theorem C10_history_and_recent_strip (as : List Json)
    (h : ∀ a ∈ as, jsTruthy a = true) :
    (processAll initialPanel (as.map (fun a => some (artifactEnvelope a)))).history
        = as.reverse.take 10 ∧
    (processAll initialPanel (as.map (fun a => some (artifactEnvelope a)))).history.length
        ≤ 10 ∧
    (processAll initialPanel (as.map (fun a => some (artifactEnvelope a)))).artifact
        = as.reverse.head? ∧
    recentStrip (processAll initialPanel (as.map (fun a => some (artifactEnvelope a))))
        = ((processAll initialPanel (as.map (fun a => some (artifactEnvelope a)))).history.drop 1).take 4 ∧
    (recentStrip (processAll initialPanel (as.map (fun a => some (artifactEnvelope a))))).length
        ≤ 4 := by
  have hp := processAll_envelopes as h
  rw [hp]
  refine ⟨rfl, ?_, rfl, recentStrip_eq _, recentStrip_len_le _⟩
  simp [List.length_take]

/-- Witness for C10 at a concrete two-message sequence of truthy artifacts. -/
theorem C10_history_and_recent_strip_witness :
    (∀ a ∈ [Json.num 1, Json.num 2], jsTruthy a = true) ∧
    (processAll initialPanel
        ([Json.num 1, Json.num 2].map (fun a => some (artifactEnvelope a)))).artifact
      = some (Json.num 2) :=
  ⟨by decide, (C10_history_and_recent_strip [Json.num 1, Json.num 2] (by decide)).2.2.1⟩

/-- C6 counterexample: the payload { type: "artifact", data: 7 } is a message
    of the envelope form whose data is not of the artifact shape
    { type: string, data: JSON }, yet the frontend updates its display for
    it, so the frontend does not update precisely for envelopes carrying
    shaped artifacts. -/
theorem C6_counterexample_unshaped_data_updates :
    isArtifactShape (Json.num 7) = false ∧
    (handleMessageReport initialPanel (some (artifactEnvelope (Json.num 7)))).2 = true ∧
    handleMessage initialPanel (some (artifactEnvelope (Json.num 7))) =
      { artifact := some (Json.num 7), history := [Json.num 7] } :=
  ⟨rfl, rfl, rfl⟩

/-- C6 amended: every artifact push that reaches the display channel is a
    reliable message whose payload is exactly the envelope
    { type: "artifact", data: artifact }; the frontend updates its display
    exactly for messages that parse as JSON with type === "artifact" and a
    truthy data field, without validating the inner artifact shape; in
    particular every envelope around a shaped artifact triggers an update. -/
theorem C6_display_contract_amended :
    (∀ (b : Bool) (a : Json) (m : SentMessage),
        send_artifact_to_frontend b a = some m →
        m.reliable = true ∧ m.payload = artifactEnvelope a) ∧
    (∀ (st : PanelState) (p : Option Json),
        (handleMessageReport st p).2 = isArtifactMsg p) ∧
    (∀ a : Json, isArtifactShape a = true →
        isArtifactMsg (some (artifactEnvelope a)) = true) := by
  refine ⟨?_, handleReport_snd_eq, ?_⟩
  · intro b a m hm
    cases b with
    | false => simp [send_artifact_to_frontend] at hm
    | true =>
      simp only [send_artifact_to_frontend, if_true, Option.some.injEq] at hm
      rw [← hm]
      exact ⟨rfl, rfl⟩
  · intro a ha
    rw [isArtifactMsg_envelope]
    cases a <;> simp_all [isArtifactShape, jsTruthy]

/-- Witness for C6 amended: a concrete reliable send and a concrete shaped
    artifact whose envelope updates the display. -/
theorem C6_display_contract_amended_witness :
    ({ payload := artifactEnvelope (Json.num 1), reliable := true } : SentMessage).reliable
      = true ∧
    isArtifactMsg (some (artifactEnvelope
      (Json.obj [("type", Json.str "weather"), ("data", Json.null)]))) = true :=
  ⟨(C6_display_contract_amended.1 true (Json.num 1)
      { payload := artifactEnvelope (Json.num 1), reliable := true } rfl).1,
   C6_display_contract_amended.2.2
      (Json.obj [("type", Json.str "weather"), ("data", Json.null)]) rfl⟩

/-! ## Integration client lemmas -/

/-- On every integration failure, call_n8n_workflow returns the caught
    fallback dict built from the raised exception. -/
theorem call_n8n_failure (io : HttpOutcome) (h : isIntegrationFailure io = true) :
    call_n8n_workflow io =
      .ok (Json.obj [("speech", Json.str (failureSpeech io)),
                     ("artifact", Json.null)]) := by
  cases io with
  | timeout m => rfl
  | transportError m => rfl
  | response status statusMsg body =>
    simp only [isIntegrationFailure] at h
    by_cases h2 : 200 ≤ status ∧ status < 300
    · rw [if_pos h2] at h
      cases body with
      | ok j => simp at h
      | malformed m =>
        simp only [call_n8n_workflow, n8nTryBody, raise_for_status,
          response_json, failureSpeech]
        rw [if_pos h2, if_pos h2]
        simp [PyErr.isHttpxError, PyErr.text]
    · simp only [call_n8n_workflow, n8nTryBody, raise_for_status, failureSpeech]
      rw [if_neg h2, if_neg h2]
      simp [PyErr.isHttpxError, PyErr.text]

/-- call_n8n_workflow never lets an exception propagate to its caller. -/
theorem call_n8n_never_raises (io : HttpOutcome) :
    exceptOk (call_n8n_workflow io) = true := by
  unfold call_n8n_workflow
  cases hn : n8nTryBody io with
  | ok j => rfl
  | error e => cases he : e.isHttpxError <;> simp [he, exceptOk]

/-- C4: for every call of the integration client, any non-2xx response
    status, request timeout, or malformed-JSON body is treated as an
    integration failure: the call returns the fallback dict (a speech string
    with artifact None) rather than the workflow payload, and it never raises
    an exception to its caller. -/
theorem C4_integration_failures_fall_back (io : HttpOutcome) :
    exceptOk (call_n8n_workflow io) = true ∧
    (isIntegrationFailure io = true →
      call_n8n_workflow io =
        .ok (Json.obj [("speech", Json.str (failureSpeech io)),
                       ("artifact", Json.null)]) ∧
      isFallbackObj (Json.obj [("speech", Json.str (failureSpeech io)),
                       ("artifact", Json.null)]) = true) :=
  ⟨call_n8n_never_raises io, fun h => ⟨call_n8n_failure io h, rfl⟩⟩

/-- Witness for C4 at a concrete request timeout. -/
theorem C4_integration_failures_fall_back_witness :
    isIntegrationFailure (HttpOutcome.timeout "timed out") = true ∧
    call_n8n_workflow (HttpOutcome.timeout "timed out") =
      .ok (Json.obj [("speech",
            Json.str (failureSpeech (HttpOutcome.timeout "timed out"))),
           ("artifact", Json.null)]) :=
  ⟨rfl, ((C4_integration_failures_fall_back (HttpOutcome.timeout "timed out")).2 rfl).1⟩

/-- C5 counterexample: on a concrete timeout whose exception text is
    "Request timed out", the string read_emails hands back for speaking
    contains that raw exception text verbatim, so the fallback sentence is
    not free of raw exception text. -/
theorem C5_counterexample_speech_contains_exception_text :
    read_emails (HttpOutcome.timeout "Request timed out") =
      .ok (Json.str ("I had trouble connecting to that service: "
            ++ "Request timed out")) ∧
    strHasSub "Request timed out"
      ("I had trouble connecting to that service: " ++ "Request timed out")
      = true := by
  constructor
  · rfl
  · decide

/-- C5 amended: for every integration failure inside the synchronous
    read_emails tool, the string returned for speaking is the single
    natural-language fallback sentence with the exception text appended; the
    failure surfaces immediately in that returned string, with no retry and
    no exception propagating. -/
theorem C5_failure_speech_embeds_error (io : HttpOutcome)
    (h : isIntegrationFailure io = true) :
    read_emails io = .ok (Json.str (failureSpeech io)) := by
  unfold read_emails
  rw [call_n8n_failure io h]
  rfl

/-- Witness for C5 amended at a concrete transport failure. -/
theorem C5_failure_speech_embeds_error_witness :
    isIntegrationFailure (HttpOutcome.transportError "connection refused") = true ∧
    read_emails (HttpOutcome.transportError "connection refused") =
      .ok (Json.str (failureSpeech (HttpOutcome.transportError "connection refused"))) :=
  ⟨rfl, C5_failure_speech_embeds_error (HttpOutcome.transportError "connection refused") rfl⟩

/-! ## NotificationManager lemmas -/

/-- check_pending preserves the queue length. -/
theorem checkPendingAux_length (q : List Notification) :
    (checkPendingAux q).2.length = q.length := by
  induction q with
  | nil => rfl
  | cons n rest ih =>
    cases hd : n.delivered <;> simp [checkPendingAux, hd, ih]

/-- check_pending returns delivered queue entries verbatim at their index. -/
theorem checkPendingAux_get_delivered (q : List Notification) (i : Nat)
    (n : Notification) (hget : q.get? i = some n) (hdel : n.delivered = true) :
    (checkPendingAux q).2.get? i = some n := by
  induction q generalizing i with
  | nil => simp at hget
  | cons h rest ih =>
    cases hd : h.delivered with
    | true =>
      cases i with
      | zero =>
        simp only [List.get?] at hget
        simp [checkPendingAux, hd, hget]
      | succ j =>
        simp only [List.get?] at hget
        simpa [checkPendingAux, hd] using ih j hget
    | false =>
      cases i with
      | zero =>
        simp only [List.get?, Option.some.injEq] at hget
        rw [hget, hdel] at hd
        exact Bool.noConfusion hd
      | succ j =>
        simp only [List.get?] at hget
        simpa [checkPendingAux, hd] using hget

/-- When check_pending consumes index i, the entry there was undelivered, it
    is returned with its flag set, and the queue now holds the flagged copy
    at the same index. -/
theorem checkPendingAux_pick (q : List Notification) (i : Nat)
    (x : Notification) (hp : (checkPendingAux q).1 = some (i, x)) :
    ∃ n, q.get? i = some n ∧ n.delivered = false ∧
      x = { n with delivered := true } ∧
      (checkPendingAux q).2.get? i = some x := by
  induction q generalizing i with
  | nil => simp [checkPendingAux] at hp
  | cons h rest ih =>
    cases hd : h.delivered with
    | false =>
      simp only [checkPendingAux, hd, Bool.false_eq_true, if_false,
        Option.some.injEq, Prod.mk.injEq] at hp
      obtain ⟨hi, hx⟩ := hp
      subst hi
      subst hx
      exact ⟨h, rfl, hd, rfl, by simp [checkPendingAux, hd]⟩
    | true =>
      simp only [checkPendingAux, hd, if_true, Option.map_eq_some'] at hp
      obtain ⟨⟨j, y⟩, hj, hjx⟩ := hp
      have hji : j + 1 = i := congrArg Prod.fst hjx
      have hyx : y = x := congrArg Prod.snd hjx
      subst hji
      subst hyx
      obtain ⟨n, hn1, hn2, hn3, hn4⟩ := ih j hj
      refine ⟨n, hn1, hn2, hn3, ?_⟩
      simpa [checkPendingAux, hd] using hn4

/-- Unfolding countPicksAt over the head tick. -/
theorem countPicksAt_cons (p : Option (Nat × Notification))
    (ps : List (Option (Nat × Notification))) (i : Nat) :
    countPicksAt (p :: ps) i =
      (if (p.map Prod.fst) = some i then 1 else 0) + countPicksAt ps i := by
  simp only [countPicksAt, List.filter]
  split
  · next hcond =>
    rw [if_pos (by simpa using hcond)]
    simp [Nat.add_comm]
  · next hcond =>
    rw [if_neg (by simpa using hcond)]
    simp

/-- A tick never consumes an index whose entry is already delivered. -/
theorem tick_no_pick_of_delivered (m : NotificationManager) (i : Nat)
    (h : deliveredAt m i = true) :
    ((checkPendingAux m.queue).1.map Prod.fst) ≠ some i := by
  intro hpick
  obtain ⟨⟨j, x⟩, hj, hfst⟩ := Option.map_eq_some'.1 hpick
  simp only at hfst
  obtain ⟨n, hn1, hn2, _, _⟩ := checkPendingAux_pick m.queue j x hj
  rw [hfst] at hn1
  simp only [deliveredAt, hn1] at h
  rw [h] at hn2
  exact Bool.noConfusion hn2

/-- Once an entry is delivered, no later tick of a run consumes it. -/
theorem runTicks_no_pick_of_delivered (ss : List String)
    (m : NotificationManager) (i : Nat) (h : deliveredAt m i = true) :
    countPicksAt (runTicks m ss).2 i = 0 := by
  induction ss generalizing m with
  | nil => rfl
  | cons s ss ih =>
    simp only [runTicks, pollerTick, countPicksAt_cons]
    rw [if_neg (tick_no_pick_of_delivered m i h)]
    have hdel : deliveredAt (⟨(checkPendingAux m.queue).2⟩ : NotificationManager) i = true := by
      simp only [deliveredAt] at h ⊢
      cases hget : m.queue.get? i with
      | none => rw [hget] at h; exact Bool.noConfusion h
      | some n =>
        rw [hget] at h
        rw [checkPendingAux_get_delivered m.queue i n hget h]
        exact h
    simpa using ih _ hdel

/-- Every queue position is consumed by check_pending at most once across any
    run of poller ticks. -/
theorem runTicks_picks_at_most_once (ss : List String)
    (m : NotificationManager) (i : Nat) :
    countPicksAt (runTicks m ss).2 i ≤ 1 := by
  induction ss generalizing m with
  | nil => exact Nat.zero_le 1
  | cons s ss ih =>
    simp only [runTicks, pollerTick, countPicksAt_cons]
    by_cases hpick : ((checkPendingAux m.queue).1.map Prod.fst) = some i
    · rw [if_pos hpick]
      obtain ⟨⟨j, x⟩, hj, hfst⟩ := Option.map_eq_some'.1 hpick
      simp only at hfst
      obtain ⟨n, _, _, hx, hget'⟩ := checkPendingAux_pick m.queue j x hj
      have hdel : deliveredAt (⟨(checkPendingAux m.queue).2⟩ : NotificationManager) i = true := by
        rw [← hfst]
        have hget2 : (checkPendingAux m.queue).2[j]? = some x := by
          rw [← List.get?_eq_getElem?]
          exact hget'
        simp [deliveredAt, hget2, hx]
      have h0 := runTicks_no_pick_of_delivered ss ⟨(checkPendingAux m.queue).2⟩ i hdel
      rw [h0]
    · rw [if_neg hpick]
      simpa using ih ⟨(checkPendingAux m.queue).2⟩

/-- C1: evaluation of the poller at the failing input.  With one pending
    announcement and a tick observing SessionState = "speaking", the code
    speaks nothing yet flips the delivered flag, and a subsequent tick
    observing "idle" finds nothing to deliver: the announcement is dropped,
    contradicting the claim that a non-idle tick takes no action and the
    announcement is later delivered. -/
theorem C1_nonidle_tick_consumes_announcement :
    (deliver_if_appropriate managerWithOnePending "speaking").2 = none ∧
    ((deliver_if_appropriate managerWithOnePending "speaking").1.queue.map
        Notification.delivered) = [true] ∧
    (deliver_if_appropriate
        (deliver_if_appropriate managerWithOnePending "speaking").1 "idle").2 = none ∧
    (check_pending
        (deliver_if_appropriate managerWithOnePending "speaking").1).1 = none :=
  ⟨rfl, rfl, rfl, rfl⟩

/-- C2: every announcement is created with delivered = false; a delivered
    entry is preserved verbatim by every tick; anything spoken on a tick was
    returned by check_pending on that tick; and across any run of ticks each
    queue position is returned by check_pending at most once — so an
    announcement is spoken or displayed at most once. -/
theorem C2_announcement_delivered_at_most_once :
    (∀ (m : NotificationManager) (n : NotifInput) (now : Nat),
        ((add_notification m n now).queue.getLast?).map Notification.delivered
          = some false) ∧
    (∀ (m : NotificationManager) (s : String) (i : Nat) (n : Notification),
        m.queue.get? i = some n → n.delivered = true →
        (pollerTick m s).1.queue.get? i = some n) ∧
    (∀ (m : NotificationManager) (s : String) (p : Notification),
        (pollerTick m s).2.2 = some p →
        ∃ i, (pollerTick m s).2.1 = some (i, p)) ∧
    (∀ (m : NotificationManager) (ss : List String) (i : Nat),
        countPicksAt (runTicks m ss).2 i ≤ 1) := by
  refine ⟨?_, ?_, ?_, fun m ss i => runTicks_picks_at_most_once ss m i⟩
  · intro m n now
    simp [add_notification, List.getLast?_concat]
  · intro m s i n hget hdel
    simpa [pollerTick] using checkPendingAux_get_delivered m.queue i n hget hdel
  · intro m s p hp
    simp only [pollerTick] at hp ⊢
    by_cases hs : s = "idle"
    · rw [if_pos hs] at hp
      obtain ⟨⟨j, y⟩, hj, hy⟩ := Option.map_eq_some'.1 hp
      simp only at hy
      exact ⟨j, by rw [hj, hy]⟩
    · rw [if_neg hs] at hp
      exact Option.noConfusion hp

/-- Witness for C2 at concrete queues: a delivered entry survives an idle
    tick untouched, and a two-tick run consumes position 0 at most once. -/
theorem C2_announcement_delivered_at_most_once_witness :
    managerWithOneDelivered.queue.get? 0 = some deliveredNotif ∧
    deliveredNotif.delivered = true ∧
    (pollerTick managerWithOneDelivered "idle").1.queue.get? 0 = some deliveredNotif ∧
    countPicksAt (runTicks managerWithOnePending ["speaking", "idle"]).2 0 ≤ 1 :=
  ⟨rfl, rfl,
   C2_announcement_delivered_at_most_once.2.1 managerWithOneDelivered "idle" 0
     deliveredNotif rfl rfl,
   C2_announcement_delivered_at_most_once.2.2.2 managerWithOnePending
     ["speaking", "idle"] 0⟩

/-! ## ContextStore theorems -/

/-- C3: for all topics and payloads, save followed by get before ttl_seconds
    have elapsed returns the payload; once more than ttl_seconds have
    elapsed, get returns absent and the expired entry is lazily dropped (no
    entry for the topic remains in storage). -/
theorem C3_ttl_correctness (s : ContextStore) (topic : String) (x md : Json)
    (t0 t1 : Nat) :
    (t1 - t0 ≤ s.ttl_seconds →
      ((s.save topic x md t0).get topic t1).1 = some x) ∧
    (t1 - t0 > s.ttl_seconds →
      ((s.save topic x md t0).get topic t1).1 = none ∧
      ∀ e ∈ ((s.save topic x md t0).get topic t1).2.entries, e.topic ≠ topic) := by
  have hfind : (s.save topic x md t0).entries.find? (fun e => e.topic = topic) =
      some { topic := topic, payload := x, metadata := md, created_at := t0,
             ttl_seconds := s.ttl_seconds } := by
    simp [ContextStore.save, List.find?]
  constructor
  · intro hle
    have hexp : ContextEntry.expired
        { topic := topic, payload := x, metadata := md, created_at := t0,
          ttl_seconds := s.ttl_seconds } t1 = false := by
      simp only [ContextEntry.expired, decide_eq_false_iff_not]
      omega
    simp [ContextStore.get, hfind, hexp]
  · intro hgt
    have hexp : ContextEntry.expired
        { topic := topic, payload := x, metadata := md, created_at := t0,
          ttl_seconds := s.ttl_seconds } t1 = true := by
      simp only [ContextEntry.expired, decide_eq_true_eq]
      omega
    refine ⟨by simp [ContextStore.get, hfind, hexp], ?_⟩
    intro e he
    simp only [ContextStore.get, hfind, hexp, if_true] at he
    have := (List.mem_filter.1 he).2
    simpa using this

/-- Witness for C3 at a concrete store: TTL 3600, payload readable after 10
    seconds and absent after 20000 seconds. -/
theorem C3_ttl_correctness_witness :
    (10 - 0 ≤ (⟨[], 3600⟩ : ContextStore).ttl_seconds) ∧
    (((⟨[], 3600⟩ : ContextStore).save "emails" (Json.arr []) Json.null 0).get
        "emails" 10).1 = some (Json.arr []) ∧
    (20000 - 0 > (⟨[], 3600⟩ : ContextStore).ttl_seconds) ∧
    (((⟨[], 3600⟩ : ContextStore).save "emails" (Json.arr []) Json.null 0).get
        "emails" 20000).1 = none :=
  ⟨by decide,
   (C3_ttl_correctness ⟨[], 3600⟩ "emails" (Json.arr []) Json.null 0 10).1 (by decide),
   by decide,
   ((C3_ttl_correctness ⟨[], 3600⟩ "emails" (Json.arr []) Json.null 0 20000).2 (by decide)).1⟩

/-! ## TaskQueue lemmas: exclusive claim -/

/-- A task selected by oldestPending is a Pending member of the list. -/
theorem oldestPending_mem (ts : List Task) (u : Task)
    (h : oldestPending ts = some u) : u ∈ ts ∧ u.status = TaskStatus.Pending := by
  induction ts generalizing u with
  | nil => simp [oldestPending] at h
  | cons a rest ih =>
    simp only [oldestPending] at h
    cases ho : oldestPending rest with
    | none =>
      simp only [ho] at h
      by_cases hs : a.status = TaskStatus.Pending
      · rw [if_pos hs] at h
        cases h
        exact ⟨List.mem_cons_self a rest, hs⟩
      · rw [if_neg hs] at h
        cases h
    | some v =>
      simp only [ho] at h
      obtain ⟨hv1, hv2⟩ := ih v ho
      by_cases hs : a.status = TaskStatus.Pending
      · by_cases hc : a.created_at ≤ v.created_at
        · rw [if_pos hs, if_pos hc] at h
          cases h
          exact ⟨List.mem_cons_self a rest, hs⟩
        · rw [if_pos hs, if_neg hc] at h
          cases h
          exact ⟨List.mem_cons_of_mem a hv1, hv2⟩
      · rw [if_neg hs] at h
        cases h
        exact ⟨List.mem_cons_of_mem a hv1, hv2⟩

/-- Without Pending tasks there is nothing for oldestPending to select. -/
theorem oldestPending_of_no_pending (ts : List Task)
    (h : ts.filter isPending = []) : oldestPending ts = none := by
  induction ts with
  | nil => rfl
  | cons a rest ih =>
    rw [List.filter_cons] at h
    cases hp : isPending a with
    | true => rw [hp] at h; simp at h
    | false =>
      rw [hp] at h
      simp only [Bool.false_eq_true, if_false] at h
      have hs : ¬(a.status = TaskStatus.Pending) := by
        simpa [isPending] using hp
      simp only [oldestPending, ih h, if_neg hs]

/-- With exactly one Pending task, oldestPending selects it. -/
theorem oldestPending_of_single (ts : List Task) (t : Task)
    (h : ts.filter isPending = [t]) : oldestPending ts = some t := by
  induction ts with
  | nil => simp at h
  | cons a rest ih =>
    rw [List.filter_cons] at h
    cases hp : isPending a with
    | true =>
      rw [hp] at h
      simp only [if_true] at h
      obtain ⟨hat, hrest⟩ := List.cons_eq_cons.1 h
      subst hat
      have hs : a.status = TaskStatus.Pending := by
        simpa [isPending] using hp
      simp only [oldestPending, oldestPending_of_no_pending rest hrest]
      rw [if_pos hs]
    | false =>
      rw [hp] at h
      simp only [Bool.false_eq_true, if_false] at h
      have hs : ¬(a.status = TaskStatus.Pending) := by
        simpa [isPending] using hp
      simp only [oldestPending, ih h]
      rw [if_neg hs]

/-- setRunningById introduces no Pending task. -/
theorem setRunning_no_pending (ts : List Task) (i : Nat)
    (h : ts.filter isPending = []) :
    (setRunningById ts i).filter isPending = [] := by
  induction ts with
  | nil => rfl
  | cons a rest ih =>
    rw [List.filter_cons] at h
    cases hp : isPending a with
    | true => rw [hp] at h; simp at h
    | false =>
      rw [hp] at h
      simp only [Bool.false_eq_true, if_false] at h
      simp only [setRunningById, List.map_cons, List.filter_cons]
      have hhead : isPending (if a.id = i
          then { a with status := TaskStatus.Running } else a) = false := by
        by_cases hid : a.id = i
        · simp [hid, isPending]
        · simp [hid, hp]
      simp only [hhead, Bool.false_eq_true, if_false]
      simpa [setRunningById] using ih h

/-- Claiming the unique Pending task leaves no Pending task behind. -/
theorem setRunning_of_single (ts : List Task) (t : Task)
    (h : ts.filter isPending = [t]) :
    (setRunningById ts t.id).filter isPending = [] := by
  induction ts with
  | nil => rfl
  | cons a rest ih =>
    rw [List.filter_cons] at h
    cases hp : isPending a with
    | true =>
      rw [hp] at h
      simp only [if_true] at h
      obtain ⟨hat, hrest⟩ := List.cons_eq_cons.1 h
      subst hat
      have hnp := setRunning_no_pending rest a.id hrest
      simp only [setRunningById] at hnp
      simp [setRunningById, isPending, hnp]
    | false =>
      rw [hp] at h
      simp only [Bool.false_eq_true, if_false] at h
      simp only [setRunningById, List.map_cons, List.filter_cons]
      have hhead : isPending (if a.id = t.id
          then { a with status := TaskStatus.Running } else a) = false := by
        by_cases hid : a.id = t.id
        · simp [hid, isPending]
        · simp [hid, hp]
      simp only [hhead, Bool.false_eq_true, if_false]
      simpa [setRunningById] using ih h

/-- With no Pending task, claimNext returns none and changes nothing. -/
theorem claimNext_of_no_pending (q : TaskQueue)
    (h : q.tasks.filter isPending = []) : q.claimNext = (none, q) := by
  simp [TaskQueue.claimNext, oldestPending_of_no_pending q.tasks h]

/-- With no Pending task, every one of n claims comes back empty. -/
theorem iterateClaims_of_no_pending (n : Nat) (q : TaskQueue)
    (h : q.tasks.filter isPending = []) :
    (iterateClaims q n).1 = List.replicate n none := by
  induction n generalizing q with
  | zero => rfl
  | succ m ih =>
    simp only [iterateClaims, claimNext_of_no_pending q h]
    simpa [List.replicate] using ih q h

/-- C7: with exactly one Pending task in the queue, the serialization of N
    concurrent claimNext callers hands the task — transitioned from Pending
    to Running — to exactly the first caller in the serialization order, and
    every other caller receives none: the task is claimed exactly once. -/
theorem C7_exclusive_claim (q : TaskQueue) (t : Task) (N : Nat) (hN : 0 < N)
    (h : q.tasks.filter isPending = [t]) :
    t.status = TaskStatus.Pending ∧
    (iterateClaims q N).1 =
      some { t with status := TaskStatus.Running } :: List.replicate (N - 1) none := by
  have hmem : t ∈ q.tasks.filter isPending := by
    rw [h]; exact List.mem_singleton_self t
  have ht : t.status = TaskStatus.Pending := by
    have := (List.mem_filter.1 hmem).2
    simpa [isPending] using this
  refine ⟨ht, ?_⟩
  cases N with
  | zero => cases hN
  | succ m =>
    simp only [iterateClaims, TaskQueue.claimNext,
      oldestPending_of_single q.tasks t h]
    have hq1 : (({ q with tasks := setRunningById q.tasks t.id } : TaskQueue).tasks.filter
        isPending) = [] := setRunning_of_single q.tasks t h
    simp [iterateClaims_of_no_pending m _ hq1]

/-- Witness for C7: a queue holding exactly one Pending task, claimed by the
    first of three callers. -/
theorem C7_exclusive_claim_witness :
    (0 < 3) ∧
    ((⟨[pendingTask], 2⟩ : TaskQueue).tasks.filter isPending = [pendingTask]) ∧
    (iterateClaims ⟨[pendingTask], 2⟩ 3).1 =
      some { pendingTask with status := TaskStatus.Running } ::
        List.replicate 2 none :=
  ⟨by decide, rfl,
   (C7_exclusive_claim ⟨[pendingTask], 2⟩ pendingTask 3 (by decide) rfl).2⟩

/-! ## TaskQueue lemmas: terminal finality -/

/-- findById commutes with an id-preserving update map. -/
theorem findById_map (ts : List Task) (i : Nat) (f : Task → Task)
    (hf : ∀ u, (f u).id = u.id) :
    findById (ts.map f) i = (findById ts i).map f := by
  induction ts with
  | nil => rfl
  | cons a rest ih =>
    by_cases ha : a.id = i
    · simp only [findById, List.map_cons]
      rw [List.find?_cons_of_pos _ (by simp [hf, ha]),
          List.find?_cons_of_pos _ (by simp [ha])]
      rfl
    · simp only [findById, List.map_cons]
      rw [List.find?_cons_of_neg _ (by simp [hf, ha]),
          List.find?_cons_of_neg _ (by simp [ha])]
      exact ih

/-- Rejection: complete on a task not in Running is an error. -/
theorem complete_rejects (q : TaskQueue) (i : Nat) (r : Json) (now : Nat)
    (t : Task) (hf : findById q.tasks i = some t)
    (hs : t.status ≠ TaskStatus.Running) :
    exceptOk (q.complete i r now) = false := by
  unfold TaskQueue.complete
  simp only [hf]
  rw [if_neg hs]
  rfl

/-- Rejection: fail on a task not in Running is an error. -/
theorem fail_rejects (q : TaskQueue) (i : Nat) (e : String) (now : Nat)
    (t : Task) (hf : findById q.tasks i = some t)
    (hs : t.status ≠ TaskStatus.Running) :
    exceptOk (q.fail i e now) = false := by
  unfold TaskQueue.fail
  simp only [hf]
  rw [if_neg hs]
  rfl

/-- Dissection of a successful complete: the found task was Running and the
    task list is the pointwise Done-update at its id. -/
theorem complete_ok (q : TaskQueue) (i : Nat) (r : Json) (now : Nat)
    (q' : TaskQueue) (h : q.complete i r now = .ok q') :
    ∃ t, findById q.tasks i = some t ∧ t.status = TaskStatus.Running ∧
      q'.tasks = q.tasks.map (fun u => if u.id = i then
        { u with status := TaskStatus.Done, result := some r,
                 completed_at := some now } else u) ∧
      q'.nextId = q.nextId := by
  unfold TaskQueue.complete at h
  cases hf : findById q.tasks i with
  | none => simp only [hf] at h; exact Except.noConfusion h
  | some t =>
    simp only [hf] at h
    by_cases hs : t.status = TaskStatus.Running
    · rw [if_pos hs] at h
      cases h
      exact ⟨t, rfl, hs, rfl, rfl⟩
    · rw [if_neg hs] at h
      exact Except.noConfusion h

/-- Dissection of a successful fail: the found task was Running and the task
    list is the pointwise Failed-update at its id. -/
theorem fail_ok (q : TaskQueue) (i : Nat) (e : String) (now : Nat)
    (q' : TaskQueue) (h : q.fail i e now = .ok q') :
    ∃ t, findById q.tasks i = some t ∧ t.status = TaskStatus.Running ∧
      q'.tasks = q.tasks.map (fun u => if u.id = i then
        { u with status := TaskStatus.Failed, error := some e,
                 completed_at := some now } else u) ∧
      q'.nextId = q.nextId := by
  unfold TaskQueue.fail at h
  cases hf : findById q.tasks i with
  | none => simp only [hf] at h; exact Except.noConfusion h
  | some t =>
    simp only [hf] at h
    by_cases hs : t.status = TaskStatus.Running
    · rw [if_pos hs] at h
      cases h
      exact ⟨t, rfl, hs, rfl, rfl⟩
    · rw [if_neg hs] at h
      exact Except.noConfusion h

/-- The id found by findById satisfies the lookup key. -/
theorem findById_id (ts : List Task) (i : Nat) (t : Task)
    (h : findById ts i = some t) : t.id = i := by
  unfold findById at h
  have := List.find?_some h
  simpa using this

/-- The task found by findById is in the list. -/
theorem findById_mem (ts : List Task) (i : Nat) (t : Task)
    (h : findById ts i = some t) : t ∈ ts := by
  unfold findById at h
  exact List.mem_of_find?_eq_some h

/-- A terminal status is neither Pending nor Running. -/
theorem terminal_ne (s : TaskStatus) (h : s.terminal = true) :
    s ≠ TaskStatus.Pending ∧ s ≠ TaskStatus.Running := by
  cases s <;> simp_all [TaskStatus.terminal]

/-- Distinct statuses force distinct ids in a well-formed queue. -/
theorem ne_id_of_status_ne (q : TaskQueue) (hWF : q.WF) (t u : Task)
    (ht : t ∈ q.tasks) (hu : u ∈ q.tasks)
    (hne : t.status ≠ u.status) : t.id ≠ u.id := by
  intro hid
  have heq : t = u :=
    List.inj_on_of_nodup_map hWF.1 ht hu (show Task.id t = Task.id u from hid)
  exact hne (by rw [heq])

/-- An element fixed by the map keeps its position. -/
theorem get?_map_fixed (ts : List Task) (k : Nat) (t : Task) (f : Task → Task)
    (hget : ts.get? k = some t) (hft : f t = t) :
    (ts.map f).get? k = some t := by
  rw [List.get?_eq_getElem?] at hget ⊢
  rw [List.getElem?_map, hget]
  simp [hft]

/-- A position holding some element is inside the list. -/
theorem lt_length_of_get? (ts : List Task) (k : Nat) (t : Task)
    (hget : ts.get? k = some t) : k < ts.length := by
  by_contra hk
  rw [List.get?_eq_getElem?] at hget
  rw [List.getElem?_eq_none (Nat.le_of_not_lt hk)] at hget
  exact Option.noConfusion hget

/-- Membership from a positional lookup. -/
theorem mem_of_get? (ts : List Task) (k : Nat) (t : Task)
    (hget : ts.get? k = some t) : t ∈ ts := by
  rw [List.get?_eq_getElem?] at hget
  exact List.getElem?_mem hget

/-- One queue operation on a well-formed queue leaves every terminal task
    untouched at its position. -/
theorem terminal_stable_step (q : TaskQueue) (hWF : q.WF) (op : QOp)
    (k : Nat) (t : Task) (hget : q.tasks.get? k = some t)
    (hterm : t.status.terminal = true) :
    (applyOp q op).tasks.get? k = some t := by
  have htmem : t ∈ q.tasks := mem_of_get? q.tasks k t hget
  cases op with
  | enqueueOp kind p now =>
    have hk : k < q.tasks.length := lt_length_of_get? q.tasks k t hget
    simp only [applyOp, TaskQueue.enqueue]
    rw [List.get?_eq_getElem?] at hget ⊢
    rw [List.getElem?_append_left hk]
    exact hget
  | claimOp =>
    simp only [applyOp, TaskQueue.claimNext]
    cases hop : oldestPending q.tasks with
    | none => exact hget
    | some u =>
      obtain ⟨humem, hupend⟩ := oldestPending_mem q.tasks u hop
      have hne : t.id ≠ u.id := by
        refine ne_id_of_status_ne q hWF t u htmem humem ?_
        rw [hupend]
        exact (terminal_ne t.status hterm).1
      simp only [setRunningById]
      exact get?_map_fixed q.tasks k t _ hget (by rw [if_neg hne])
  | completeOp i r now =>
    simp only [applyOp]
    cases hc : q.complete i r now with
    | error e => exact hget
    | ok q' =>
      obtain ⟨tf, hf, hfs, htasks, _⟩ := complete_ok q i r now q' hc
      have hfmem : tf ∈ q.tasks := findById_mem q.tasks i tf hf
      have hfid : tf.id = i := findById_id q.tasks i tf hf
      have hne : t.id ≠ i := by
        rw [← hfid]
        refine ne_id_of_status_ne q hWF t tf htmem hfmem ?_
        rw [hfs]
        exact (terminal_ne t.status hterm).2
      rw [htasks]
      exact get?_map_fixed q.tasks k t _ hget (by rw [if_neg hne])
  | failOp i e now =>
    simp only [applyOp]
    cases hc : q.fail i e now with
    | error e2 => exact hget
    | ok q' =>
      obtain ⟨tf, hf, hfs, htasks, _⟩ := fail_ok q i e now q' hc
      have hfmem : tf ∈ q.tasks := findById_mem q.tasks i tf hf
      have hfid : tf.id = i := findById_id q.tasks i tf hf
      have hne : t.id ≠ i := by
        rw [← hfid]
        refine ne_id_of_status_ne q hWF t tf htmem hfmem ?_
        rw [hfs]
        exact (terminal_ne t.status hterm).2
      rw [htasks]
      exact get?_map_fixed q.tasks k t _ hget (by rw [if_neg hne])

/-- The ids of an id-preserving update map are unchanged. -/
theorem ids_map_preserved (ts : List Task) (f : Task → Task)
    (hf : ∀ u, (f u).id = u.id) :
    (ts.map f).map Task.id = ts.map Task.id := by
  induction ts with
  | nil => rfl
  | cons a rest ih => simp [hf, ih]

/-- Well-formedness is preserved by an id-preserving update map. -/
theorem WF_map (q : TaskQueue) (hWF : q.WF) (f : Task → Task)
    (hf : ∀ u, (f u).id = u.id) :
    TaskQueue.WF { q with tasks := q.tasks.map f } := by
  constructor
  · rw [ids_map_preserved q.tasks f hf]
    exact hWF.1
  · intro t ht
    obtain ⟨u, hu, hut⟩ := List.mem_map.1 ht
    rw [← hut, hf u]
    exact hWF.2 u hu

/-- Every queue operation preserves well-formedness. -/
theorem WF_applyOp (q : TaskQueue) (hWF : q.WF) (op : QOp) :
    (applyOp q op).WF := by
  cases op with
  | enqueueOp kind p now =>
    simp only [applyOp, TaskQueue.enqueue]
    constructor
    · rw [List.map_append]
      simp only [List.map_cons, List.map_nil]
      rw [← List.concat_eq_append]
      refine List.Nodup.concat ?_ hWF.1
      intro hmem
      obtain ⟨u, hu, hui⟩ := List.mem_map.1 hmem
      exact Nat.lt_irrefl q.nextId (hui ▸ hWF.2 u hu)
    · intro t ht
      rcases List.mem_append.1 ht with hL | hR
      · exact Nat.lt_succ_of_lt (hWF.2 t hL)
      · rw [List.mem_singleton.1 hR]
        exact Nat.lt_succ_self q.nextId
  | claimOp =>
    simp only [applyOp, TaskQueue.claimNext]
    cases hop : oldestPending q.tasks with
    | none => exact hWF
    | some u =>
      simp only [setRunningById]
      exact WF_map q hWF _ (fun v => by by_cases hv : v.id = u.id <;> simp [hv])
  | completeOp i r now =>
    simp only [applyOp]
    cases hc : q.complete i r now with
    | error e => exact hWF
    | ok q' =>
      obtain ⟨tf, _, _, htasks, hnext⟩ := complete_ok q i r now q' hc
      have : q' = { q with tasks := q'.tasks } := by
        cases q'
        simp_all
      rw [this, htasks]
      exact WF_map q hWF _ (fun v => by by_cases hv : v.id = i <;> simp [hv])
  | failOp i e now =>
    simp only [applyOp]
    cases hc : q.fail i e now with
    | error e2 => exact hWF
    | ok q' =>
      obtain ⟨tf, _, _, htasks, hnext⟩ := fail_ok q i e now q' hc
      have : q' = { q with tasks := q'.tasks } := by
        cases q'
        simp_all
      rw [this, htasks]
      exact WF_map q hWF _ (fun v => by by_cases hv : v.id = i <;> simp [hv])

/-- Terminal tasks survive any sequence of queue operations unchanged. -/
theorem terminal_stable_run (ops : List QOp) (q : TaskQueue) (k : Nat)
    (t : Task) (hWF : q.WF) (hget : q.tasks.get? k = some t)
    (hterm : t.status.terminal = true) :
    (applyOps q ops).tasks.get? k = some t := by
  induction ops generalizing q with
  | nil => exact hget
  | cons op ops ih =>
    simp only [applyOps, List.foldl_cons]
    exact ih (applyOp q op) (WF_applyOp q hWF op)
      (terminal_stable_step q hWF op k t hget hterm)

/-- C8: complete only performs Running to Done and fail only Running to
    Failed; calling either on a task not in Running is rejected as an error;
    and in a well-formed queue a task in Done or Failed never changes again
    under any sequence of subsequent queue operations. -/
theorem C8_terminal_finality :
    (∀ (q : TaskQueue) (i : Nat) (r : Json) (e : String) (now : Nat) (t : Task),
        findById q.tasks i = some t → t.status ≠ TaskStatus.Running →
        exceptOk (q.complete i r now) = false ∧
        exceptOk (q.fail i e now) = false) ∧
    (∀ (q : TaskQueue) (i : Nat) (r : Json) (now : Nat) (q' : TaskQueue),
        q.complete i r now = .ok q' →
        ∃ t, findById q.tasks i = some t ∧ t.status = TaskStatus.Running ∧
          findById q'.tasks i =
            some { t with status := TaskStatus.Done, result := some r,
                          completed_at := some now }) ∧
    (∀ (q : TaskQueue) (i : Nat) (e : String) (now : Nat) (q' : TaskQueue),
        q.fail i e now = .ok q' →
        ∃ t, findById q.tasks i = some t ∧ t.status = TaskStatus.Running ∧
          findById q'.tasks i =
            some { t with status := TaskStatus.Failed, error := some e,
                          completed_at := some now }) ∧
    (∀ (ops : List QOp) (q : TaskQueue) (k : Nat) (t : Task),
        q.WF → q.tasks.get? k = some t → t.status.terminal = true →
        (applyOps q ops).tasks.get? k = some t) := by
  refine ⟨?_, ?_, ?_, fun ops q k t hWF hget hterm =>
    terminal_stable_run ops q k t hWF hget hterm⟩
  · intro q i r e now t hf hs
    exact ⟨complete_rejects q i r now t hf hs, fail_rejects q i e now t hf hs⟩
  · intro q i r now q' h
    obtain ⟨t, hf, hs, htasks, _⟩ := complete_ok q i r now q' h
    refine ⟨t, hf, hs, ?_⟩
    have hti : t.id = i := findById_id q.tasks i t hf
    rw [htasks, findById_map q.tasks i _
      (fun u => by by_cases hu : u.id = i <;> simp [hu]), hf]
    simp [hti]
  · intro q i e now q' h
    obtain ⟨t, hf, hs, htasks, _⟩ := fail_ok q i e now q' h
    refine ⟨t, hf, hs, ?_⟩
    have hti : t.id = i := findById_id q.tasks i t hf
    rw [htasks, findById_map q.tasks i _
      (fun u => by by_cases hu : u.id = i <;> simp [hu]), hf]
    simp [hti]

/-- Witness for C8: rejection of complete/fail on a Done task, and stability
    of the Done task under a claim followed by a complete attempt. -/
theorem C8_terminal_finality_witness :
    findById (⟨[doneTask], 3⟩ : TaskQueue).tasks 2 = some doneTask ∧
    doneTask.status ≠ TaskStatus.Running ∧
    exceptOk ((⟨[doneTask], 3⟩ : TaskQueue).complete 2 (Json.obj []) 7) = false ∧
    (⟨[doneTask], 3⟩ : TaskQueue).WF ∧
    (⟨[doneTask], 3⟩ : TaskQueue).tasks.get? 0 = some doneTask ∧
    doneTask.status.terminal = true ∧
    (applyOps ⟨[doneTask], 3⟩
        [QOp.claimOp, QOp.completeOp 2 (Json.obj []) 7]).tasks.get? 0
      = some doneTask :=
  ⟨rfl, by decide, (C8_terminal_finality.1 ⟨[doneTask], 3⟩ 2 (Json.obj []) "x" 7
      doneTask rfl (by decide)).1,
   by constructor
      · decide
      · intro t ht
        rw [List.mem_singleton.1 ht]
        decide,
   rfl, rfl,
   C8_terminal_finality.2.2.2 [QOp.claimOp, QOp.completeOp 2 (Json.obj []) 7]
     ⟨[doneTask], 3⟩ 0 doneTask
     ⟨by decide, fun t ht => by rw [List.mem_singleton.1 ht]; decide⟩ rfl rfl⟩

end Jex
